import Mathlib

/-!
Shallow embedding of `invisible_cities/reco/xy_algorithms.py`.

Positions are pairs of rationals, charges are rationals (Python floats are
modelled by exact rationals; the algorithm only adds, multiplies, divides and
compares, so every reachable value is rational).  The numpy comparison
`np.linalg.norm(pos - cs) <= d` is encoded without square roots as
`0 ≤ d ∧ sqDist pos cs ≤ d * d`, which is equivalent over the rationals.

Python exceptions are modelled by `Except`; the `while` loop of `corona` is
modelled by a fuel-bounded interpreter (`coronaLoop`).  The loop body is a
pure function of the working arrays, so if one iteration neither exits nor
shrinks the working set the state repeats forever; hence running the loop
with fuel equal to the size of the working set returns `none` exactly when
the Python loop fails to terminate within that many iterations (and, by the
state-repetition argument, never terminates at all).
-/

deriving instance DecidableEq for Except

namespace XYAlg

/-- The exception classes imported from `core.exceptions`, plus the
`assert` statements at the top of `corona` (an `AssertionError`). -/
inductive XYError where
  | SipmEmptyList
  | SipmZeroCharge
  | SipmEmptyListAboveQthr
  | SipmZeroChargeAboveQthr
  | ClusterEmptyList
  | AssertionError
deriving DecidableEq

/-- `evm.event_model.Cluster` as built by `barycenter`:
`Cluster(np.sum(qs), xy(*mu), xy(*var), len(qs))`. -/
structure Cluster where
  Q : ℚ
  posxy : ℚ × ℚ
  var : ℚ × ℚ
  nsipm : ℕ
deriving DecidableEq

/-- One row of the `all_sipms` dataframe: columns `X`, `Y`, `Active`. -/
structure Sipm where
  X : ℚ
  Y : ℚ
  Active : Bool
deriving DecidableEq

/-- Squared Euclidean distance between two points. -/
def sqDist (p c : ℚ × ℚ) : ℚ :=
  (p.1 - c.1) * (p.1 - c.1) + (p.2 - c.2) * (p.2 - c.2)

/-- Numpy fancy indexing `xs[inds]` (all indices produced by the code are in
range, where `filterMap` keeps every element). -/
def select {α : Type} (xs : List α) (inds : List ℕ) : List α :=
  inds.filterMap (fun i => xs.get? i)

/-- `np.delete(xs, sis)`: keep, in order, the entries whose index is not in
`sis`. -/
def removeIdx {α : Type} (sis : List ℕ) (xs : List α) : List α :=
  select xs ((List.range xs.length).filter (fun i => !(sis.contains i)))

/-- `discard_sipms` from the source:
`np.delete(pos, sis, axis=0), np.delete(qs, sis)`. -/
def discard_sipms (sis : List ℕ) (pos : List (ℚ × ℚ)) (qs : List ℚ) :
    List (ℚ × ℚ) × List ℚ :=
  (removeIdx sis pos, removeIdx sis qs)

/-- `get_nearby_sipm_inds` from the source:
`np.where(np.linalg.norm(pos - cs, axis=1) <= d)[0]`, the indices of the
positions whose Euclidean distance to `cs` is at most `d`, encoded without
square roots (`norm ≤ d` iff `0 ≤ d` and `norm² ≤ d²`). -/
def get_nearby_sipm_inds (cs : ℚ × ℚ) (d : ℚ) (pos : List (ℚ × ℚ)) : List ℕ :=
  (List.range pos.length).filter
    (fun i => decide (0 ≤ d ∧ sqDist (pos.getD i (0, 0)) cs ≤ d * d))

/-- `count_masked` from the source: `0` when `is_masked is None`, otherwise
the number of full-table indices within `d` of `cs` whose mask entry is
false (`np.count_nonzero(~is_masked.astype(bool)[indices])`). -/
def count_masked (cs : ℚ × ℚ) (d : ℚ) (datasipm : List Sipm)
    (is_masked : Option (List Bool)) : ℕ :=
  match is_masked with
  | none => 0
  | some m =>
      let pos := datasipm.map (fun s => (s.X, s.Y))
      let indices := get_nearby_sipm_inds cs d pos
      (indices.filter (fun i => !(m.getD i true))).length

/-- Modelled from the spec: the statistics primitive `weighted_mean_and_var`
of `core.core_functions` is imported by the source but its definition is not
under `src/`.  Spec section 4.1: given weighted 2-D points it returns the
weighted mean and the weighted variance computed per axis, normalizing by
the total weight internally; behaviour on empty input or zero total weight
is the caller's responsibility (`barycenter` guards both). -/
def weighted_mean_and_var (pos : List (ℚ × ℚ)) (qs : List ℚ) :
    (ℚ × ℚ) × (ℚ × ℚ) :=
  let W := qs.sum
  let mx := (List.zipWith (fun q p => q * p.1) qs pos).sum / W
  let my := (List.zipWith (fun q p => q * p.2) qs pos).sum / W
  let vx := (List.zipWith (fun q p => q * ((p.1 - mx) * (p.1 - mx))) qs pos).sum / W
  let vy := (List.zipWith (fun q p => q * ((p.2 - my) * (p.2 - my))) qs pos).sum / W
  ((mx, my), (vx, vy))

/-- `barycenter` from the source: raise `SipmEmptyList` on an empty position
set, `SipmZeroCharge` when `np.sum(qs) == 0`, otherwise return the singleton
list `[Cluster(np.sum(qs), xy(*mu), xy(*var), len(qs))]`. -/
def barycenter (pos : List (ℚ × ℚ)) (qs : List ℚ) :
    Except XYError (List Cluster) :=
  if pos.length = 0 then .error .SipmEmptyList
  else if qs.sum = 0 then .error .SipmZeroCharge
  else
    let mv := weighted_mean_and_var pos qs
    .ok [⟨qs.sum, mv.1, mv.2, qs.length⟩]

/-- Helper for `argmax`: scan with the current best index and value,
replacing the best only on a strictly larger value (so the first occurrence
of the maximum wins, as with `np.argmax`).  `i` is the index of the head of
the remaining list. -/
def argmaxFrom : ℕ → ℕ → ℚ → List ℚ → ℕ × ℚ
  | _, b, bv, [] => (b, bv)
  | i, b, bv, q :: rest =>
      if bv < q then argmaxFrom (i + 1) i q rest
      else argmaxFrom (i + 1) b bv rest

/-- `np.argmax(qs)`: index of the first occurrence of the maximum
(arbitrarily 0 on the empty list, which the loop guard rules out). -/
def argmax : List ℚ → ℕ
  | [] => 0
  | q :: rest => (argmaxFrom 1 0 q rest).1

/-- Lines 164-166 of the source: the refined peak
`barycenter(pos[within_lm_radius], qs[within_lm_radius])[0].posxy`, where
`within_lm_radius` is the set of remaining sensors within `lm_radius` of the
hottest sensor's position. -/
def coronaRefined (pos : List (ℚ × ℚ)) (qs : List ℚ) (lm_radius : ℚ) :
    Except XYError (ℚ × ℚ) :=
  let hottest := argmax qs
  let within_lm_radius := get_nearby_sipm_inds (pos.getD hottest (0, 0)) lm_radius pos
  (barycenter (select pos within_lm_radius) (select qs within_lm_radius)).map
    (fun bcs => (bcs.headD ⟨0, (0, 0), (0, 0), 0⟩).posxy)

/-- The region grown in one iteration: the remaining sensors within
`new_lm_radius` of the refined peak (empty when the refinement raised,
in which case the iteration never reaches the region computation). -/
def coronaRegion (pos : List (ℚ × ℚ)) (qs : List ℚ)
    (lm_radius new_lm_radius : ℚ) : List ℕ :=
  match coronaRefined pos qs lm_radius with
  | .error _ => []
  | .ok new_local_maximum => get_nearby_sipm_inds new_local_maximum new_lm_radius pos

/-- Outcome of one iteration of `corona`'s `while` body. -/
inductive StepOut where
  | raise (e : XYError)
  | brk
  | next (pos : List (ℚ × ℚ)) (qs : List ℚ) (newc : List Cluster)
deriving DecidableEq

/-- One iteration of `corona`'s `while` body (lines 161-178 of the source):
hottest-sensor check, peak refinement, region growth, masked count,
acceptance test, and removal of the region sensors.  `newc` carries the
clusters appended to `c` by this iteration (`c.extend(...)` or nothing). -/
def coronaStep (all_sipms : List Sipm) (masked : Option (List Bool))
    (Qlm lm_radius new_lm_radius : ℚ) (msipm : ℤ)
    (pos : List (ℚ × ℚ)) (qs : List ℚ) : StepOut :=
  let hottest := argmax qs
  if qs.getD hottest 0 < Qlm then .brk
  else
    match coronaRefined pos qs lm_radius with
    | .error e => .raise e
    | .ok new_local_maximum =>
        let within_new_lm_radius :=
          get_nearby_sipm_inds new_local_maximum new_lm_radius pos
        let n_masked_neighbours :=
          count_masked new_local_maximum new_lm_radius all_sipms masked
        if msipm - (n_masked_neighbours : ℤ) ≤ (within_new_lm_radius.length : ℤ) then
          match barycenter (select pos within_new_lm_radius)
                           (select qs within_new_lm_radius) with
          | .error e => .raise e
          | .ok bcs =>
              .next (discard_sipms within_new_lm_radius pos qs).1
                    (discard_sipms within_new_lm_radius pos qs).2 bcs
        else
          .next (discard_sipms within_new_lm_radius pos qs).1
                (discard_sipms within_new_lm_radius pos qs).2 []

/-- The check after the loop (line 180): `if not len(c): raise ClusterEmptyList`. -/
def coronaFinish (c : List Cluster) : Except XYError (List Cluster) :=
  if c.length = 0 then .error .ClusterEmptyList else .ok c

/-- Fuel-bounded interpreter for `corona`'s `while len(qs) > 0` loop.
`none` means the fuel ran out with sensors still remaining; since the body
is a pure function of the working arrays, a run that exceeds fuel equal to
the working-set size has repeated a state and never terminates. -/
def coronaLoop (all_sipms : List Sipm) (masked : Option (List Bool))
    (Qlm lm_radius new_lm_radius : ℚ) (msipm : ℤ) :
    ℕ → List (ℚ × ℚ) → List ℚ → List Cluster →
    Option (Except XYError (List Cluster))
  | 0, _, qs, c => if qs.length = 0 then some (coronaFinish c) else none
  | fuel + 1, pos, qs, c =>
      if qs.length = 0 then some (coronaFinish c)
      else
        match coronaStep all_sipms masked Qlm lm_radius new_lm_radius msipm pos qs with
        | .raise e => some (.error e)
        | .brk => some (coronaFinish c)
        | .next pos' qs' newc =>
            coronaLoop all_sipms masked Qlm lm_radius new_lm_radius msipm
              fuel pos' qs' (c ++ newc)

/-- `np.where(qs >= Qthr)[0]`: indices of the sensors whose charge is at
least `Qthr` (charges exactly equal to `Qthr` are kept). -/
def aboveThreshold (Qthr : ℚ) (qs : List ℚ) : List ℕ :=
  (List.range qs.length).filter (fun i => decide (Qthr ≤ qs.getD i 0))

/-- `corona` from the source.  The two `assert` statements, the two
pre-threshold checks, the `Qthr` filtering, the two post-threshold checks,
then the loop run with fuel equal to the post-threshold working-set size
(the bound the loop satisfies whenever every iteration shrinks or exits). -/
def corona (pos : List (ℚ × ℚ)) (qs : List ℚ) (all_sipms : List Sipm)
    (Qthr Qlm lm_radius new_lm_radius : ℚ) (msipm : ℤ)
    (consider_masked : Bool) : Option (Except XYError (List Cluster)) :=
  if ¬ (0 ≤ lm_radius) then some (.error .AssertionError)
  else if ¬ (0 ≤ new_lm_radius) then some (.error .AssertionError)
  else if pos.length = 0 then some (.error .SipmEmptyList)
  else if qs.sum = 0 then some (.error .SipmZeroCharge)
  else
    let masked : Option (List Bool) :=
      if consider_masked then some (all_sipms.map (fun s => s.Active)) else none
    let above := aboveThreshold Qthr qs
    let pos1 := select pos above
    let qs1 := select qs above
    if pos1.length = 0 then some (.error .SipmEmptyListAboveQthr)
    else if qs1.sum = 0 then some (.error .SipmZeroChargeAboveQthr)
    else coronaLoop all_sipms masked Qlm lm_radius new_lm_radius msipm
           qs1.length pos1 qs1 []

/-- Ghost companion of `coronaLoop`: it follows exactly the same control
flow (same guard, same `coronaStep` call) but, instead of clusters, records
for each accepted region the original identities (`ids`) of the sensors the
region consumed.  Used to state that no sensor feeds two output clusters. -/
def coronaRegions (all_sipms : List Sipm) (masked : Option (List Bool))
    (Qlm lm_radius new_lm_radius : ℚ) (msipm : ℤ) :
    ℕ → List (ℚ × ℚ) → List ℚ → List ℕ → List (List ℕ)
  | 0, _, _, _ => []
  | fuel + 1, pos, qs, ids =>
      if qs.length = 0 then []
      else
        match coronaStep all_sipms masked Qlm lm_radius new_lm_radius msipm pos qs with
        | .raise _ => []
        | .brk => []
        | .next pos' qs' newc =>
            let reg := coronaRegion pos qs lm_radius new_lm_radius
            let rest := coronaRegions all_sipms masked Qlm lm_radius new_lm_radius msipm
              fuel pos' qs' (removeIdx reg ids)
            if newc = [] then rest else select ids reg :: rest

/-- Python exceptions relevant to the registry lookup. -/
inductive PyError where
  | ValueErrorMsg (msg : String)
  | AttributeError (name : String)
deriving DecidableEq

/-- The module-level bindings of `xy_algorithms.py`: the interpreter dunder
entries, the imports, and the six functions defined in the module. -/
inductive ModuleAttr where
  | module_dunder_name
  | module_dunder_doc
  | module_dunder_package
  | module_dunder_loader
  | module_dunder_spec
  | module_dunder_file
  | module_dunder_builtins
  | sys
  | np
  | pd
  | weighted_mean_and_var
  | units
  | SipmEmptyList
  | SipmZeroCharge
  | SipmEmptyListAboveQthr
  | SipmZeroChargeAboveQthr
  | ClusterEmptyList
  | check_annotations
  | xy
  | Cluster
  | Optional
  | find_algorithm
  | barycenter
  | discard_sipms
  | get_nearby_sipm_inds
  | count_masked
  | corona
deriving DecidableEq

/-- `sys.modules[__name__].__dict__` of `xy_algorithms.py`: every
module-level binding, keyed by its name. -/
def module_dict : List (String × ModuleAttr) :=
  [ ("__name__", .module_dunder_name)
  , ("__doc__", .module_dunder_doc)
  , ("__package__", .module_dunder_package)
  , ("__loader__", .module_dunder_loader)
  , ("__spec__", .module_dunder_spec)
  , ("__file__", .module_dunder_file)
  , ("__builtins__", .module_dunder_builtins)
  , ("sys", .sys)
  , ("np", .np)
  , ("pd", .pd)
  , ("weighted_mean_and_var", .weighted_mean_and_var)
  , ("units", .units)
  , ("SipmEmptyList", .SipmEmptyList)
  , ("SipmZeroCharge", .SipmZeroCharge)
  , ("SipmEmptyListAboveQthr", .SipmEmptyListAboveQthr)
  , ("SipmZeroChargeAboveQthr", .SipmZeroChargeAboveQthr)
  , ("ClusterEmptyList", .ClusterEmptyList)
  , ("check_annotations", .check_annotations)
  , ("xy", .xy)
  , ("Cluster", .Cluster)
  , ("Optional", .Optional)
  , ("find_algorithm", .find_algorithm)
  , ("barycenter", .barycenter)
  , ("discard_sipms", .discard_sipms)
  , ("get_nearby_sipm_inds", .get_nearby_sipm_inds)
  , ("count_masked", .count_masked)
  , ("corona", .corona)
  ]

/-- The `ValueError` message raised by `find_algorithm`:
`"The algorithm <{}> does not exist".format(algoname)`. -/
def unknown_algo_msg (algoname : String) : String :=
  "The algorithm <" ++ algoname ++ "> does not exist"

/-- `getattr(sys.modules[__name__], name)`: the bound value, or an
`AttributeError` when the name is absent. -/
def getattr_module (name : String) : Except PyError ModuleAttr :=
  match module_dict.find? (fun kv => kv.1 == name) with
  | some kv => .ok kv.2
  | none => .error (.AttributeError name)

/-- `find_algorithm` from the source: membership test on the module dict,
`getattr` on success, `ValueError` with an explicit message otherwise. -/
def find_algorithm (algoname : String) : Except PyError ModuleAttr :=
  if (module_dict.map Prod.fst).contains algoname then getattr_module algoname
  else .error (.ValueErrorMsg (unknown_algo_msg algoname))

/-! ### Helper lemmas -/

lemma sqDist_self (p : ℚ × ℚ) : sqDist p p = 0 := by
  simp [sqDist]

lemma sqDist_nonneg (p c : ℚ × ℚ) : 0 ≤ sqDist p c := by
  have h1 : 0 ≤ (p.1 - c.1) * (p.1 - c.1) := mul_self_nonneg _
  have h2 : 0 ≤ (p.2 - c.2) * (p.2 - c.2) := mul_self_nonneg _
  simpa [sqDist] using add_nonneg h1 h2

lemma sqDist_eq_zero_iff (p c : ℚ × ℚ) : sqDist p c = 0 ↔ p = c := by
  constructor
  · intro h
    have h1 : 0 ≤ (p.1 - c.1) * (p.1 - c.1) := mul_self_nonneg _
    have h2 : 0 ≤ (p.2 - c.2) * (p.2 - c.2) := mul_self_nonneg _
    have hb := (add_eq_zero_iff_of_nonneg h1 h2).mp h
    have e1 : p.1 = c.1 := by
      have := mul_self_eq_zero.mp hb.1
      linarith
    have e2 : p.2 = c.2 := by
      have := mul_self_eq_zero.mp hb.2
      linarith
    exact Prod.ext e1 e2
  · intro h
    subst h
    exact sqDist_self p

lemma mem_get_nearby {i : ℕ} {cs : ℚ × ℚ} {d : ℚ} {pos : List (ℚ × ℚ)} :
    i ∈ get_nearby_sipm_inds cs d pos ↔
      i < pos.length ∧ 0 ≤ d ∧ sqDist (pos.getD i (0, 0)) cs ≤ d * d := by
  simp [get_nearby_sipm_inds, List.mem_filter, List.mem_range, and_assoc]

lemma mem_select {α : Type} {x : α} {xs : List α} {l : List ℕ} :
    x ∈ select xs l ↔ ∃ i ∈ l, xs.get? i = some x := by
  simp [select, List.mem_filterMap]

lemma select_length_of_valid {α : Type} {xs : List α} {l : List ℕ}
    (h : ∀ i ∈ l, i < xs.length) : (select xs l).length = l.length := by
  induction l with
  | nil => rfl
  | cons i t ih =>
      have hi : i < xs.length := h i (List.mem_cons_self i t)
      have hget : xs[i]? = some xs[i] := List.getElem?_eq_getElem hi
      have ht : ∀ j ∈ t, j < xs.length := fun j hj => h j (List.mem_cons_of_mem _ hj)
      have hcons : select xs (i :: t) = xs[i] :: select xs t := by
        simp [select, List.filterMap_cons, hget]
      rw [hcons, List.length_cons, List.length_cons, ih ht]

lemma select_length_eq {α β : Type} {xs : List α} {ys : List β} {l : List ℕ}
    (hxs : ∀ i ∈ l, i < xs.length) (hlen : xs.length = ys.length) :
    (select xs l).length = (select ys l).length := by
  rw [select_length_of_valid hxs, select_length_of_valid (fun i hi => hlen ▸ hxs i hi)]

lemma select_ne_nil_of_mem {α : Type} {xs : List α} {l : List ℕ} {i : ℕ}
    (hi : i ∈ l) (hlt : i < xs.length) : select xs l ≠ [] := by
  intro hnil
  have : xs.get ⟨i, hlt⟩ ∈ select xs l :=
    mem_select.mpr ⟨i, hi, List.get?_eq_get hlt⟩
  simp [hnil] at this

lemma contains_eq_true_iff {α : Type} [BEq α] [LawfulBEq α] (l : List α) (a : α) :
    l.contains a = true ↔ a ∈ l := by
  simp [List.contains]

lemma length_filter_lt_of_mem_false {α : Type} {p : α → Bool} {l : List α} {x : α}
    (hx : x ∈ l) (hp : p x = false) : (l.filter p).length < l.length := by
  induction l with
  | nil => cases hx
  | cons a t ih =>
      rcases List.mem_cons.mp hx with h | h
      · subst h
        have : (t.filter p).length ≤ t.length := t.length_filter_le p
        simp [List.filter_cons, hp]
        omega
      · by_cases hpa : p a
        · have := ih h
          simp [List.filter_cons, hpa]
          omega
        · have : (t.filter p).length ≤ t.length := t.length_filter_le p
          simp [List.filter_cons, hpa]
          omega

lemma removeIdx_length_le {α : Type} (sis : List ℕ) (xs : List α) :
    (removeIdx sis xs).length ≤ xs.length := by
  have hval : ∀ i ∈ (List.range xs.length).filter (fun i => !(sis.contains i)),
      i < xs.length := by
    intro i hi
    exact List.mem_range.mp (List.mem_filter.mp hi).1
  calc (removeIdx sis xs).length
      = ((List.range xs.length).filter (fun i => !(sis.contains i))).length :=
        select_length_of_valid hval
    _ ≤ (List.range xs.length).length := List.length_filter_le _ _
    _ = xs.length := List.length_range _

lemma removeIdx_length_lt {α : Type} {sis : List ℕ} {xs : List α} {h : ℕ}
    (hmem : h ∈ sis) (hlt : h < xs.length) :
    (removeIdx sis xs).length < xs.length := by
  have hval : ∀ i ∈ (List.range xs.length).filter (fun i => !(sis.contains i)),
      i < xs.length := by
    intro i hi
    exact List.mem_range.mp (List.mem_filter.mp hi).1
  have hx : h ∈ List.range xs.length := List.mem_range.mpr hlt
  have hp : (!(sis.contains h)) = false := by
    simp [contains_eq_true_iff, hmem]
  calc (removeIdx sis xs).length
      = ((List.range xs.length).filter (fun i => !(sis.contains i))).length :=
        select_length_of_valid hval
    _ < (List.range xs.length).length := length_filter_lt_of_mem_false hx hp
    _ = xs.length := List.length_range _

lemma removeIdx_length_congr {α β : Type} (sis : List ℕ) {xs : List α} {ys : List β}
    (hlen : xs.length = ys.length) :
    (removeIdx sis xs).length = (removeIdx sis ys).length := by
  have hvx : ∀ i ∈ (List.range xs.length).filter (fun i => !(sis.contains i)),
      i < xs.length := fun i hi => List.mem_range.mp (List.mem_filter.mp hi).1
  have hvy : ∀ i ∈ (List.range ys.length).filter (fun i => !(sis.contains i)),
      i < ys.length := fun i hi => List.mem_range.mp (List.mem_filter.mp hi).1
  rw [removeIdx, removeIdx, select_length_of_valid hvx, select_length_of_valid hvy, hlen]

lemma mem_removeIdx {α : Type} {x : α} {sis : List ℕ} {xs : List α} :
    x ∈ removeIdx sis xs ↔ ∃ i, i ∉ sis ∧ xs.get? i = some x := by
  constructor
  · intro hx
    rcases mem_select.mp hx with ⟨i, hi, hget⟩
    have hfil := List.mem_filter.mp hi
    refine ⟨i, ?_, hget⟩
    intro hmem
    have hc : (sis.contains i) = true := (contains_eq_true_iff _ _).mpr hmem
    rw [hc] at hfil
    simp at hfil
  · rintro ⟨i, hnot, hget⟩
    have hlt : i < xs.length := by
      rcases List.get?_eq_some.mp hget with ⟨h, _⟩
      exact h
    refine mem_select.mpr ⟨i, ?_, hget⟩
    refine List.mem_filter.mpr ⟨List.mem_range.mpr hlt, ?_⟩
    simp [contains_eq_true_iff, hnot]

lemma mem_of_mem_removeIdx {α : Type} {x : α} {sis : List ℕ} {xs : List α}
    (hx : x ∈ removeIdx sis xs) : x ∈ xs := by
  rcases mem_removeIdx.mp hx with ⟨i, _, hget⟩
  exact List.get?_mem hget

lemma removeIdx_nodup {α : Type} {sis : List ℕ} {xs : List α}
    (h : xs.Nodup) : (removeIdx sis xs).Nodup := by
  refine List.Nodup.filterMap ?_ ?_
  · intro a a' b hb hb'
    simp only [Option.mem_def] at hb hb'
    have ha : a < xs.length := by
      rcases List.get?_eq_some.mp hb with ⟨hh, _⟩
      exact hh
    exact List.get?_inj ha h (hb.trans hb'.symm)
  · exact List.Nodup.filter _ (List.nodup_range _)

lemma argmaxFrom_fst_lt (l : List ℚ) :
    ∀ (i b : ℕ) (bv : ℚ), b < i → (argmaxFrom i b bv l).1 < i + l.length := by
  induction l with
  | nil =>
      intro i b bv hb
      simpa [argmaxFrom] using hb
  | cons q t ih =>
      intro i b bv hb
      simp only [argmaxFrom]
      by_cases hc : bv < q
      · have := ih (i + 1) i q (Nat.lt_succ_self i)
        simpa [hc, Nat.add_comm, Nat.add_assoc, Nat.add_left_comm] using this
      · have := ih (i + 1) b bv (Nat.lt_succ_of_lt hb)
        simpa [hc, Nat.add_comm, Nat.add_assoc, Nat.add_left_comm] using this

lemma argmax_lt_length {qs : List ℚ} (h : qs ≠ []) : argmax qs < qs.length := by
  cases qs with
  | nil => exact absurd rfl h
  | cons q t =>
      have := argmaxFrom_fst_lt t 1 0 q Nat.zero_lt_one
      simpa [argmax, Nat.add_comm] using this

lemma getD_mem {α : Type} {l : List α} {i : ℕ} (h : i < l.length) (d : α) :
    l.getD i d ∈ l := by
  have h1 : l[i]? = some l[i] := List.getElem?_eq_getElem h
  rw [List.getD_eq_getElem?_getD, h1, Option.getD_some]
  exact List.getElem_mem h

lemma zipWith_sum_of_const (f : (ℚ × ℚ) → ℚ) (p0 : ℚ × ℚ) :
    ∀ (qs : List ℚ) (pos : List (ℚ × ℚ)), pos.length = qs.length →
      (∀ p ∈ pos, p = p0) →
      (List.zipWith (fun q p => q * f p) qs pos).sum = qs.sum * f p0 := by
  intro qs
  induction qs with
  | nil =>
      intro pos h _
      cases pos with
      | nil => simp
      | cons p ps => simp at h
  | cons q t ih =>
      intro pos hlen hc
      cases pos with
      | nil => simp at hlen
      | cons p ps =>
          have hp : p = p0 := hc p (List.mem_cons_self _ _)
          have hps : ∀ x ∈ ps, x = p0 := fun x hx => hc x (List.mem_cons_of_mem _ hx)
          have hl : ps.length = t.length := by simpa using hlen
          simp only [List.zipWith_cons_cons, List.sum_cons, ih ps hl hps, hp]
          ring

lemma weighted_mean_and_var_fst_const {pos : List (ℚ × ℚ)} {qs : List ℚ}
    {p0 : ℚ × ℚ} (hc : ∀ p ∈ pos, p = p0) (hlen : pos.length = qs.length)
    (hs : qs.sum ≠ 0) : (weighted_mean_and_var pos qs).1 = p0 := by
  have h1 := zipWith_sum_of_const (fun p => p.1) p0 qs pos hlen hc
  have h2 := zipWith_sum_of_const (fun p => p.2) p0 qs pos hlen hc
  have hmk : (weighted_mean_and_var pos qs).1 =
      ((List.zipWith (fun q p => q * p.1) qs pos).sum / qs.sum,
       (List.zipWith (fun q p => q * p.2) qs pos).sum / qs.sum) := rfl
  rw [hmk, h1, h2, mul_div_cancel_left₀ _ hs, mul_div_cancel_left₀ _ hs]

lemma barycenter_empty {pos : List (ℚ × ℚ)} {qs : List ℚ} (h : pos.length = 0) :
    barycenter pos qs = .error .SipmEmptyList := by
  simp [barycenter, h]

lemma barycenter_zero {pos : List (ℚ × ℚ)} {qs : List ℚ}
    (h1 : pos.length ≠ 0) (h2 : qs.sum = 0) :
    barycenter pos qs = .error .SipmZeroCharge := by
  simp [barycenter, h1, h2]

lemma barycenter_ok {pos : List (ℚ × ℚ)} {qs : List ℚ}
    (h1 : pos.length ≠ 0) (h2 : qs.sum ≠ 0) :
    barycenter pos qs = .ok [⟨qs.sum, (weighted_mean_and_var pos qs).1,
      (weighted_mean_and_var pos qs).2, qs.length⟩] := by
  simp [barycenter, h1, h2]

lemma barycenter_ok_inv {pos : List (ℚ × ℚ)} {qs : List ℚ} {l : List Cluster}
    (h : barycenter pos qs = .ok l) :
    pos.length ≠ 0 ∧ qs.sum ≠ 0 ∧
      l = [⟨qs.sum, (weighted_mean_and_var pos qs).1,
        (weighted_mean_and_var pos qs).2, qs.length⟩] := by
  by_cases h1 : pos.length = 0
  · rw [barycenter_empty h1] at h
    cases h
  · by_cases h2 : qs.sum = 0
    · rw [barycenter_zero h1 h2] at h
      cases h
    · rw [barycenter_ok h1 h2] at h
      cases h
      exact ⟨h1, h2, rfl⟩

lemma barycenter_ne_empty_error {pos : List (ℚ × ℚ)} {qs : List ℚ}
    (h : pos.length ≠ 0) : barycenter pos qs ≠ .error .SipmEmptyList := by
  by_cases h2 : qs.sum = 0
  · rw [barycenter_zero h h2]
    intro hx
    cases hx
  · rw [barycenter_ok h h2]
    intro hx
    cases hx

lemma argmax_mem_nearby {pos : List (ℚ × ℚ)} {qs : List ℚ} {lm : ℚ}
    (hlen : pos.length = qs.length) (hq : qs ≠ []) (hlm : 0 ≤ lm) :
    argmax qs ∈ get_nearby_sipm_inds (pos.getD (argmax qs) (0, 0)) lm pos := by
  apply mem_get_nearby.mpr
  refine ⟨hlen ▸ argmax_lt_length hq, hlm, ?_⟩
  rw [sqDist_self]
  exact mul_nonneg hlm hlm

lemma coronaRefined_eq (pos : List (ℚ × ℚ)) (qs : List ℚ) (lm : ℚ) :
    coronaRefined pos qs lm =
      (barycenter (select pos (get_nearby_sipm_inds (pos.getD (argmax qs) (0, 0)) lm pos))
                  (select qs (get_nearby_sipm_inds (pos.getD (argmax qs) (0, 0)) lm pos))).map
        (fun bcs => (bcs.headD ⟨0, (0, 0), (0, 0), 0⟩).posxy) := rfl

lemma coronaRefined_ok_inv {pos : List (ℚ × ℚ)} {qs : List ℚ} {lm : ℚ} {nlmax : ℚ × ℚ}
    (h : coronaRefined pos qs lm = .ok nlmax) :
    ∃ l, barycenter (select pos (get_nearby_sipm_inds (pos.getD (argmax qs) (0, 0)) lm pos))
           (select qs (get_nearby_sipm_inds (pos.getD (argmax qs) (0, 0)) lm pos)) = .ok l
       ∧ nlmax = (l.headD ⟨0, (0, 0), (0, 0), 0⟩).posxy := by
  rw [coronaRefined_eq] at h
  cases hb : barycenter (select pos (get_nearby_sipm_inds (pos.getD (argmax qs) (0, 0)) lm pos))
      (select qs (get_nearby_sipm_inds (pos.getD (argmax qs) (0, 0)) lm pos)) with
  | error e =>
      rw [hb] at h
      simp only [Except.map] at h
      cases h
  | ok l =>
      rw [hb] at h
      simp only [Except.map] at h
      injection h with h
      exact ⟨l, rfl, h.symm⟩

lemma coronaRefined_ne_empty {pos : List (ℚ × ℚ)} {qs : List ℚ} {lm : ℚ}
    (hlen : pos.length = qs.length) (hq : qs ≠ []) (hlm : 0 ≤ lm) :
    coronaRefined pos qs lm ≠ .error .SipmEmptyList := by
  have hmem := argmax_mem_nearby hlen hq hlm
  have hlt : argmax qs < pos.length := hlen ▸ argmax_lt_length hq
  have hne : select pos (get_nearby_sipm_inds (pos.getD (argmax qs) (0, 0)) lm pos) ≠ [] :=
    select_ne_nil_of_mem hmem hlt
  have hlenne : (select pos (get_nearby_sipm_inds (pos.getD (argmax qs) (0, 0)) lm pos)).length ≠ 0 :=
    fun h0 => hne (List.length_eq_zero.mp h0)
  intro hcontra
  rw [coronaRefined_eq] at hcontra
  cases hb : barycenter (select pos (get_nearby_sipm_inds (pos.getD (argmax qs) (0, 0)) lm pos))
      (select qs (get_nearby_sipm_inds (pos.getD (argmax qs) (0, 0)) lm pos)) with
  | error e =>
      rw [hb] at hcontra
      simp only [Except.map] at hcontra
      injection hcontra with hcontra
      exact barycenter_ne_empty_error hlenne (by rw [hb, hcontra])
  | ok l =>
      rw [hb] at hcontra
      simp only [Except.map] at hcontra
      cases hcontra

lemma coronaRefined_zero_ok {pos : List (ℚ × ℚ)} {qs : List ℚ} {nlmax : ℚ × ℚ}
    (hlen : pos.length = qs.length) (hq : qs ≠ [])
    (h : coronaRefined pos qs 0 = .ok nlmax) :
    nlmax = pos.getD (argmax qs) (0, 0) := by
  rcases coronaRefined_ok_inv h with ⟨l, hb, hnl⟩
  rcases barycenter_ok_inv hb with ⟨hne, hsum, hl⟩
  subst hl
  simp only [List.headD_cons] at hnl
  have hconst : ∀ p ∈ select pos (get_nearby_sipm_inds (pos.getD (argmax qs) (0, 0)) 0 pos),
      p = pos.getD (argmax qs) (0, 0) := by
    intro p hp
    rcases mem_select.mp hp with ⟨j, hjW, hget⟩
    rcases mem_get_nearby.mp hjW with ⟨hjlt, _, hdist⟩
    have hz : sqDist (pos.getD j (0, 0)) (pos.getD (argmax qs) (0, 0)) = 0 :=
      le_antisymm (by simpa using hdist) (sqDist_nonneg _ _)
    have hpj := (sqDist_eq_zero_iff _ _).mp hz
    have hg : pos[j]? = some p := by simpa using hget
    have hjp : pos.getD j (0, 0) = p := by
      rw [List.getD_eq_getElem?_getD, hg, Option.getD_some]
    rw [← hjp, hpj]
  have hlensel : (select pos (get_nearby_sipm_inds (pos.getD (argmax qs) (0, 0)) 0 pos)).length
      = (select qs (get_nearby_sipm_inds (pos.getD (argmax qs) (0, 0)) 0 pos)).length :=
    select_length_eq (fun j hj => (mem_get_nearby.mp hj).1) hlen
  rw [hnl]
  exact weighted_mean_and_var_fst_const hconst hlensel hsum

lemma coronaStep_eq (T : List Sipm) (M : Option (List Bool)) (Qlm lm nlm : ℚ)
    (ms : ℤ) (pos : List (ℚ × ℚ)) (qs : List ℚ) :
    coronaStep T M Qlm lm nlm ms pos qs =
      (if qs.getD (argmax qs) 0 < Qlm then .brk
       else
         match coronaRefined pos qs lm with
         | .error e => .raise e
         | .ok nlmax =>
             if ms - (count_masked nlmax nlm T M : ℤ) ≤
                 ((get_nearby_sipm_inds nlmax nlm pos).length : ℤ) then
               match barycenter (select pos (get_nearby_sipm_inds nlmax nlm pos))
                                (select qs (get_nearby_sipm_inds nlmax nlm pos)) with
               | .error e => .raise e
               | .ok bcs =>
                   .next (removeIdx (get_nearby_sipm_inds nlmax nlm pos) pos)
                         (removeIdx (get_nearby_sipm_inds nlmax nlm pos) qs) bcs
             else
               .next (removeIdx (get_nearby_sipm_inds nlmax nlm pos) pos)
                     (removeIdx (get_nearby_sipm_inds nlmax nlm pos) qs) []) := rfl

lemma coronaStep_next_inv {T : List Sipm} {M : Option (List Bool)}
    {Qlm lm nlm : ℚ} {ms : ℤ} {pos p' : List (ℚ × ℚ)} {qs q' : List ℚ}
    {d : List Cluster}
    (h : coronaStep T M Qlm lm nlm ms pos qs = .next p' q' d) :
    ∃ nlmax, coronaRefined pos qs lm = .ok nlmax ∧
      p' = removeIdx (get_nearby_sipm_inds nlmax nlm pos) pos ∧
      q' = removeIdx (get_nearby_sipm_inds nlmax nlm pos) qs ∧
      ((ms - (count_masked nlmax nlm T M : ℤ) ≤
          ((get_nearby_sipm_inds nlmax nlm pos).length : ℤ) ∧ ∃ cl, d = [cl]) ∨
       (¬ ms - (count_masked nlmax nlm T M : ℤ) ≤
          ((get_nearby_sipm_inds nlmax nlm pos).length : ℤ) ∧ d = [])) := by
  rw [coronaStep_eq] at h
  split at h
  · cases h
  · split at h
    · cases h
    · rename_i nlmax hr
      refine ⟨nlmax, hr, ?_⟩
      split at h
      · rename_i hacc
        split at h
        · cases h
        · rename_i bcs hbar
          rcases barycenter_ok_inv hbar with ⟨_, _, hbcs⟩
          cases h
          exact ⟨rfl, rfl, Or.inl ⟨hacc, _, hbcs⟩⟩
      · rename_i hacc
        cases h
        exact ⟨rfl, rfl, Or.inr ⟨hacc, rfl⟩⟩

lemma corona_eq (pos : List (ℚ × ℚ)) (qs : List ℚ) (T : List Sipm)
    (Qthr Qlm lm nlm : ℚ) (ms : ℤ) (cm : Bool) :
    corona pos qs T Qthr Qlm lm nlm ms cm =
      (if ¬ (0 ≤ lm) then some (.error .AssertionError)
       else if ¬ (0 ≤ nlm) then some (.error .AssertionError)
       else if pos.length = 0 then some (.error .SipmEmptyList)
       else if qs.sum = 0 then some (.error .SipmZeroCharge)
       else if (select pos (aboveThreshold Qthr qs)).length = 0 then
         some (.error .SipmEmptyListAboveQthr)
       else if (select qs (aboveThreshold Qthr qs)).sum = 0 then
         some (.error .SipmZeroChargeAboveQthr)
       else
         coronaLoop T (if cm then some (T.map (fun s => s.Active)) else none)
           Qlm lm nlm ms (select qs (aboveThreshold Qthr qs)).length
           (select pos (aboveThreshold Qthr qs))
           (select qs (aboveThreshold Qthr qs)) []) := rfl

lemma coronaStep_zero_cases (T : List Sipm) (M : Option (List Bool))
    (Qlm nlm : ℚ) (ms : ℤ) {pos : List (ℚ × ℚ)} {qs : List ℚ}
    (hlen : pos.length = qs.length) (hq : ¬ qs.length = 0) (hnlm : 0 ≤ nlm) :
    (∃ e, coronaStep T M Qlm 0 nlm ms pos qs = .raise e) ∨
    coronaStep T M Qlm 0 nlm ms pos qs = .brk ∨
    (∃ p' q' d, coronaStep T M Qlm 0 nlm ms pos qs = .next p' q' d ∧
      q'.length < qs.length ∧ p'.length = q'.length) := by
  cases hs : coronaStep T M Qlm 0 nlm ms pos qs with
  | raise e => exact Or.inl ⟨e, rfl⟩
  | brk => exact Or.inr (Or.inl rfl)
  | next p' q' d =>
      rcases coronaStep_next_inv hs with ⟨nlmax, hr, hp, hqq, _⟩
      have hqne : qs ≠ [] := fun h0 => hq (by simp [h0])
      have hnl := coronaRefined_zero_ok hlen hqne hr
      have hmem : argmax qs ∈ get_nearby_sipm_inds nlmax nlm pos := by
        rw [hnl]
        exact argmax_mem_nearby hlen hqne hnlm
      have hlt : argmax qs < qs.length := argmax_lt_length hqne
      refine Or.inr (Or.inr ⟨p', q', d, rfl, ?_, ?_⟩)
      · rw [hqq]
        exact removeIdx_length_lt hmem hlt
      · rw [hp, hqq]
        exact removeIdx_length_congr _ hlen

lemma coronaLoop_isSome_zero {T : List Sipm} {M : Option (List Bool)}
    {Qlm nlm : ℚ} {ms : ℤ} (hnlm : 0 ≤ nlm) :
    ∀ (fuel : ℕ) (pos : List (ℚ × ℚ)) (qs : List ℚ) (c : List Cluster),
      pos.length = qs.length → qs.length ≤ fuel →
      (coronaLoop T M Qlm 0 nlm ms fuel pos qs c).isSome := by
  intro fuel
  induction fuel with
  | zero =>
      intro pos qs c hlen hle
      have h0 : qs.length = 0 := Nat.le_zero.mp hle
      simp [coronaLoop, h0]
  | succ n ih =>
      intro pos qs c hlen hle
      by_cases hq : qs.length = 0
      · simp [coronaLoop, hq]
      · rcases coronaStep_zero_cases T M Qlm nlm ms hlen hq hnlm with ⟨e, hs⟩ | hs |
          ⟨p', q', d, hs, hlt, hl⟩
        · simp [coronaLoop, hq, hs]
        · simp [coronaLoop, hq, hs]
        · have hrec := ih p' q' (c ++ d) hl (by omega)
          simpa [coronaLoop, hq, hs] using hrec

lemma mem_select_subset {α : Type} {x : α} {xs : List α} {l : List ℕ}
    (h : x ∈ select xs l) : x ∈ xs := by
  rcases mem_select.mp h with ⟨i, _, hget⟩
  exact List.get?_mem hget

lemma not_mem_removeIdx_of_mem_select {α : Type} {xs : List α} {reg : List ℕ}
    {x : α} (hnd : xs.Nodup) (hx : x ∈ select xs reg) :
    x ∉ removeIdx reg xs := by
  rcases mem_select.mp hx with ⟨i, hireg, hgi⟩
  intro hmem
  rcases mem_removeIdx.mp hmem with ⟨j, hjreg, hgj⟩
  have hilt : i < xs.length := by
    rcases List.get?_eq_some.mp hgi with ⟨hh, _⟩
    exact hh
  have hij : i = j := List.get?_inj hilt hnd (hgi.trans hgj.symm)
  exact hjreg (hij ▸ hireg)

lemma coronaFinish_ok_inv {c cs : List Cluster} (h : coronaFinish c = .ok cs) :
    cs = c := by
  by_cases h0 : c.length = 0
  · simp [coronaFinish, h0] at h
  · simp [coronaFinish, h0] at h
    exact h.symm

lemma coronaRegions_spec (T : List Sipm) (M : Option (List Bool))
    (Qlm lm nlm : ℚ) (ms : ℤ) :
    ∀ (fuel : ℕ) (pos : List (ℚ × ℚ)) (qs : List ℚ) (ids : List ℕ),
      ids.Nodup → ids.length = qs.length → pos.length = qs.length →
      (∀ r ∈ coronaRegions T M Qlm lm nlm ms fuel pos qs ids, ∀ x ∈ r, x ∈ ids) ∧
      List.Pairwise (fun A B => ∀ x ∈ A, x ∉ B)
        (coronaRegions T M Qlm lm nlm ms fuel pos qs ids) ∧
      ∀ (c cs : List Cluster),
        coronaLoop T M Qlm lm nlm ms fuel pos qs c = some (.ok cs) →
        (coronaRegions T M Qlm lm nlm ms fuel pos qs ids).length + c.length
          = cs.length := by
  intro fuel
  induction fuel with
  | zero =>
      intro pos qs ids hnd hl1 hl2
      refine ⟨by simp [coronaRegions], by simp [coronaRegions], ?_⟩
      intro c cs hres
      by_cases hq : qs.length = 0
      · rw [coronaLoop, if_pos hq] at hres
        injection hres with hres
        rw [coronaFinish_ok_inv hres]
        simp [coronaRegions]
      · rw [coronaLoop, if_neg hq] at hres
        cases hres
  | succ n ih =>
      intro pos qs ids hnd hl1 hl2
      by_cases hq : qs.length = 0
      · refine ⟨by simp [coronaRegions, hq], by simp [coronaRegions, hq], ?_⟩
        intro c cs hres
        rw [coronaLoop, if_pos hq] at hres
        injection hres with hres
        rw [coronaFinish_ok_inv hres]
        simp [coronaRegions, hq]
      · cases hs : coronaStep T M Qlm lm nlm ms pos qs with
        | raise e =>
            refine ⟨by simp [coronaRegions, hq, hs], by simp [coronaRegions, hq, hs], ?_⟩
            intro c cs hres
            rw [coronaLoop, if_neg hq, hs] at hres
            cases hres
        | brk =>
            refine ⟨by simp [coronaRegions, hq, hs], by simp [coronaRegions, hq, hs], ?_⟩
            intro c cs hres
            rw [coronaLoop, if_neg hq, hs] at hres
            injection hres with hres
            rw [coronaFinish_ok_inv hres]
            simp [coronaRegions, hq, hs]
        | next p' q' d =>
            rcases coronaStep_next_inv hs with ⟨nlmax, hr, hp, hqq, hacc⟩
            have hreg : coronaRegion pos qs lm nlm = get_nearby_sipm_inds nlmax nlm pos := by
              simp [coronaRegion, hr]
            have hnd' : (removeIdx (coronaRegion pos qs lm nlm) ids).Nodup :=
              removeIdx_nodup hnd
            have hl1' : (removeIdx (coronaRegion pos qs lm nlm) ids).length = q'.length := by
              rw [hqq, ← hreg]
              exact removeIdx_length_congr _ hl1
            have hl2' : p'.length = q'.length := by
              rw [hp, hqq]
              exact removeIdx_length_congr _ hl2
            obtain ⟨ihsub, ihpw, ihcorr⟩ :=
              ih p' q' (removeIdx (coronaRegion pos qs lm nlm) ids) hnd' hl1' hl2'
            have hregions : coronaRegions T M Qlm lm nlm ms (n + 1) pos qs ids =
                (if d = [] then
                  coronaRegions T M Qlm lm nlm ms n p' q'
                    (removeIdx (coronaRegion pos qs lm nlm) ids)
                else select ids (coronaRegion pos qs lm nlm) ::
                  coronaRegions T M Qlm lm nlm ms n p' q'
                    (removeIdx (coronaRegion pos qs lm nlm) ids)) := by
              rw [coronaRegions, if_neg hq, hs]
            have hloop : ∀ c, coronaLoop T M Qlm lm nlm ms (n + 1) pos qs c =
                coronaLoop T M Qlm lm nlm ms n p' q' (c ++ d) := by
              intro c
              rw [coronaLoop, if_neg hq, hs]
            by_cases hd : d = []
            · rw [hregions, if_pos hd]
              refine ⟨?_, ihpw, ?_⟩
              · intro r hrmem x hx
                exact mem_of_mem_removeIdx (ihsub r hrmem x hx)
              · intro c cs hres
                rw [hloop, hd, List.append_nil] at hres
                exact ihcorr c cs hres
            · rw [hregions, if_neg hd]
              rcases hacc with ⟨_, cl, hdcl⟩ | ⟨_, hdnil⟩
              · refine ⟨?_, ?_, ?_⟩
                · intro r hrmem x hx
                  rcases List.mem_cons.mp hrmem with hhead | htail
                  · exact mem_select_subset (hhead ▸ hx)
                  · exact mem_of_mem_removeIdx (ihsub r htail x hx)
                · refine List.Pairwise.cons ?_ ihpw
                  intro B hB x hxsel hxB
                  have hxrm : x ∈ removeIdx (coronaRegion pos qs lm nlm) ids :=
                    ihsub B hB x hxB
                  exact not_mem_removeIdx_of_mem_select hnd hxsel hxrm
                · intro c cs hres
                  rw [hloop] at hres
                  have := ihcorr (c ++ d) cs hres
                  simp only [List.length_cons, List.length_append, List.length_nil,
                    hdcl] at this ⊢
                  omega
              · exact absurd hdnil hd

/-! ### Claim theorems

The concrete evaluations below go through `decide`; the kernel can unfold
the rational-arithmetic primitives, the `local semireducible` attribute
only lets the elaborator do the same. -/

attribute [local semireducible] Rat.add Rat.mul Rat.inv Rat.sub

/-- Claim C1, amended: for every corona call with `lm_radius = 0` (the
documented typical setting) and equally long position/charge arrays, every
iteration of the main loop either strictly shrinks the working set or exits,
so the loop terminates within fuel equal to the working-set size (at most N)
and `corona` returns a result.  As stated, with unrestricted `lm_radius > 0`,
the claim is false (`c1_counterexample`). -/
theorem c1_theorem (pos : List (ℚ × ℚ)) (qs : List ℚ) (T : List Sipm)
    (Qthr Qlm nlm : ℚ) (ms : ℤ) (cm : Bool)
    (hlen : pos.length = qs.length) :
    (corona pos qs T Qthr Qlm 0 nlm ms cm).isSome := by
  rw [corona_eq, if_neg (not_not_intro (le_refl (0 : ℚ)))]
  by_cases hnlm : 0 ≤ nlm
  · rw [if_neg (not_not_intro hnlm)]
    by_cases hpos : pos.length = 0
    · rw [if_pos hpos]
      rfl
    · rw [if_neg hpos]
      by_cases hsum : qs.sum = 0
      · rw [if_pos hsum]
        rfl
      · rw [if_neg hsum]
        by_cases habove : (select pos (aboveThreshold Qthr qs)).length = 0
        · rw [if_pos habove]
          rfl
        · rw [if_neg habove]
          by_cases hqsum : (select qs (aboveThreshold Qthr qs)).sum = 0
          · rw [if_pos hqsum]
            rfl
          · rw [if_neg hqsum]
            have hvalid : ∀ i ∈ aboveThreshold Qthr qs, i < pos.length := by
              intro i hi
              have := List.mem_range.mp (List.mem_filter.mp hi).1
              omega
            exact coronaLoop_isSome_zero hnlm _ _ _ _
              (select_length_eq hvalid hlen) le_rfl
  · rw [if_pos hnlm]
    rfl

/-- Witness for C1 at a concrete input. -/
theorem c1_witness :
    (corona [((0 : ℚ), (0 : ℚ)), (1, 0)] [3, 4] [] 0 1 0 1 1 false).isSome :=
  c1_theorem [((0 : ℚ), (0 : ℚ)), (1, 0)] [3, 4] [] 0 1 1 1 false rfl

/-- Counterexample to C1 as stated: with `lm_radius = 2 > 0` and
`new_lm_radius = 1/2`, the refined peak `(1,0)` is farther than `1/2` from
both sensors, the grown region is empty, no sensor is removed, the state
repeats, and the loop exhausts fuel `N = 2` without terminating — even with
non-negative charges that pass every input and threshold check. -/
theorem c1_counterexample :
    corona [((0 : ℚ), (0 : ℚ)), (2, 0)] [1, 1] [] 0 1 2 (1 / 2) 2 false = none := by
  decide

/-- Claim C2: with the radius preconditions satisfied, `corona` raises the
four failure kinds in order — `SipmEmptyList` for an empty event,
`SipmZeroCharge` for zero total charge, then after dropping charges strictly
below `Qthr` (charges exactly `Qthr` are kept, last conjunct),
`SipmEmptyListAboveQthr` when nothing remains and `SipmZeroChargeAboveQthr`
when the remaining total charge is zero. -/
theorem c2_theorem (pos : List (ℚ × ℚ)) (qs : List ℚ) (T : List Sipm)
    (Qthr Qlm lm nlm : ℚ) (ms : ℤ) (cm : Bool) (i : ℕ)
    (hlm : 0 ≤ lm) (hnlm : 0 ≤ nlm) :
    (pos.length = 0 →
      corona pos qs T Qthr Qlm lm nlm ms cm = some (.error .SipmEmptyList)) ∧
    (pos.length ≠ 0 → qs.sum = 0 →
      corona pos qs T Qthr Qlm lm nlm ms cm = some (.error .SipmZeroCharge)) ∧
    (pos.length ≠ 0 → qs.sum ≠ 0 →
      (select pos (aboveThreshold Qthr qs)).length = 0 →
      corona pos qs T Qthr Qlm lm nlm ms cm = some (.error .SipmEmptyListAboveQthr)) ∧
    (pos.length ≠ 0 → qs.sum ≠ 0 →
      (select pos (aboveThreshold Qthr qs)).length ≠ 0 →
      (select qs (aboveThreshold Qthr qs)).sum = 0 →
      corona pos qs T Qthr Qlm lm nlm ms cm = some (.error .SipmZeroChargeAboveQthr)) ∧
    (i ∈ aboveThreshold Qthr qs ↔ i < qs.length ∧ Qthr ≤ qs.getD i 0) := by
  refine ⟨?_, ?_, ?_, ?_, ?_⟩
  · intro h1
    rw [corona_eq, if_neg (not_not_intro hlm), if_neg (not_not_intro hnlm), if_pos h1]
  · intro h1 h2
    rw [corona_eq, if_neg (not_not_intro hlm), if_neg (not_not_intro hnlm),
      if_neg h1, if_pos h2]
  · intro h1 h2 h3
    rw [corona_eq, if_neg (not_not_intro hlm), if_neg (not_not_intro hnlm),
      if_neg h1, if_neg h2, if_pos h3]
  · intro h1 h2 h3 h4
    rw [corona_eq, if_neg (not_not_intro hlm), if_neg (not_not_intro hnlm),
      if_neg h1, if_neg h2, if_neg h3, if_pos h4]
  · simp [aboveThreshold, List.mem_filter, List.mem_range]

/-- Witness for C2: each failure kind triggered at a concrete input, and a
sensor with charge exactly `Qthr` is kept. -/
theorem c2_witness :
    corona [] [] [] 0 0 0 0 0 false = some (.error .SipmEmptyList) ∧
    corona [((0 : ℚ), (0 : ℚ))] [0] [] 0 0 0 0 0 false
      = some (.error .SipmZeroCharge) ∧
    corona [((0 : ℚ), (0 : ℚ))] [1] [] 2 0 0 0 0 false
      = some (.error .SipmEmptyListAboveQthr) ∧
    corona [((0 : ℚ), (0 : ℚ)), (1, 0), (2, 0)] [3, -3, -5] [] (-3) 0 0 0 0 false
      = some (.error .SipmZeroChargeAboveQthr) ∧
    (1 ∈ aboveThreshold 2 [1, 2, 3] ↔ (1 : ℕ) < 3 ∧ (2 : ℚ) ≤ ([1, 2, 3] : List ℚ).getD 1 0) :=
  ⟨(c2_theorem [] [] [] 0 0 0 0 0 false 0 le_rfl le_rfl).1 rfl,
   (c2_theorem [((0 : ℚ), (0 : ℚ))] [0] [] 0 0 0 0 0 false 0 le_rfl le_rfl).2.1
     (by decide) (by decide),
   (c2_theorem [((0 : ℚ), (0 : ℚ))] [1] [] 2 0 0 0 0 false 0 le_rfl le_rfl).2.2.1
     (by decide) (by decide) (by decide),
   (c2_theorem [((0 : ℚ), (0 : ℚ)), (1, 0), (2, 0)] [3, -3, -5] [] (-3) 0 0 0 0 false 0
     le_rfl le_rfl).2.2.2.1 (by decide) (by decide) (by decide) (by decide),
   (c2_theorem [] [1, 2, 3] [] 2 0 0 0 0 false 1 le_rfl le_rfl).2.2.2.2⟩

/-- Claim C3: `barycenter` raises `SipmEmptyList` on an empty position set,
`SipmZeroCharge` on a non-empty set with zero total charge, and otherwise
returns exactly one cluster whose `Q` is `qs.sum` exactly, whose `nsipm` is
`qs.length` exactly, and whose centroid and variance come from the weighted
mean/variance primitive. -/
theorem c3_theorem (pos : List (ℚ × ℚ)) (qs : List ℚ) :
    (pos.length = 0 → barycenter pos qs = .error .SipmEmptyList) ∧
    (pos.length ≠ 0 → qs.sum = 0 → barycenter pos qs = .error .SipmZeroCharge) ∧
    (pos.length ≠ 0 → qs.sum ≠ 0 →
      barycenter pos qs = .ok [⟨qs.sum, (weighted_mean_and_var pos qs).1,
        (weighted_mean_and_var pos qs).2, qs.length⟩]) :=
  ⟨fun h => barycenter_empty h,
   fun h1 h2 => barycenter_zero h1 h2,
   fun h1 h2 => barycenter_ok h1 h2⟩

/-- Witness for C3: both failures and a successful cluster, evaluated. -/
theorem c3_witness :
    barycenter [] [(1 : ℚ)] = .error .SipmEmptyList ∧
    barycenter [((0 : ℚ), (0 : ℚ)), (2, 0)] [1, -1] = .error .SipmZeroCharge ∧
    barycenter [((0 : ℚ), (0 : ℚ)), (2, 0)] [1, 3]
      = .ok [⟨4, (3 / 2, 0), (3 / 4, 0), 2⟩] :=
  ⟨(c3_theorem [] [(1 : ℚ)]).1 rfl,
   (c3_theorem [((0 : ℚ), (0 : ℚ)), (2, 0)] [1, -1]).2.1 (by decide) (by decide),
   ((c3_theorem [((0 : ℚ), (0 : ℚ)), (2, 0)] [1, 3]).2.2 (by decide) (by decide)).trans
     (by decide)⟩

/-- Claim C4: in every iteration that completes normally, the grown region's
barycenter is appended (exactly one new cluster) if and only if the region
size is at least `msipm` minus the masked-neighbor count; the masked count
is `0` unconditionally when masking is disabled.  The witness instantiates
the accepted/rejected masked scenario. -/
theorem c4_theorem (T : List Sipm) (M : Option (List Bool)) (Qlm lm nlm : ℚ)
    (ms : ℤ) (pos p' : List (ℚ × ℚ)) (qs q' : List ℚ) (d : List Cluster)
    (nlmax : ℚ × ℚ)
    (hr : coronaRefined pos qs lm = .ok nlmax)
    (hs : coronaStep T M Qlm lm nlm ms pos qs = .next p' q' d) :
    ((∃ cl, d = [cl]) ↔
      ms - (count_masked nlmax nlm T M : ℤ) ≤
        ((get_nearby_sipm_inds nlmax nlm pos).length : ℤ)) ∧
    count_masked nlmax nlm T none = 0 := by
  rcases coronaStep_next_inv hs with ⟨nlmax2, hr2, _, _, hacc⟩
  rw [hr] at hr2
  injection hr2 with hr2
  subst hr2
  refine ⟨⟨?_, ?_⟩, rfl⟩
  · rintro ⟨cl, hcl⟩
    rcases hacc with ⟨hcond, _⟩ | ⟨_, hnil⟩
    · exact hcond
    · rw [hnil] at hcl
      cases hcl
  · intro hcond
    rcases hacc with ⟨_, hex⟩ | ⟨hncond, _⟩
    · exact hex
    · exact absurd hcond hncond

/-- Witness for C4: the spec's concrete scenario.  One live sensor, region
of size 1, `msipm = 2`, one inactive full-table sensor within
`new_lm_radius`: the iteration appends a cluster when masking is enabled and
appends nothing when it is disabled; end to end, `corona` accepts in the
first case and raises `ClusterEmptyList` in the second. -/
theorem c4_witness :
    (∃ cl, [Cluster.mk 5 (0, 0) (0, 0) 1] = [cl]) ∧
    (¬ ∃ cl, ([] : List Cluster) = [cl]) ∧
    corona [((0 : ℚ), (0 : ℚ))] [5] [⟨0, 0, true⟩, ⟨1, 0, false⟩] 0 1 0 (3 / 2) 2 true
      = some (.ok [⟨5, (0, 0), (0, 0), 1⟩]) ∧
    corona [((0 : ℚ), (0 : ℚ))] [5] [⟨0, 0, true⟩, ⟨1, 0, false⟩] 0 1 0 (3 / 2) 2 false
      = some (.error .ClusterEmptyList) :=
  ⟨(c4_theorem [⟨0, 0, true⟩, ⟨1, 0, false⟩] (some [true, false]) 1 0 (3 / 2) 2
      [((0 : ℚ), (0 : ℚ))] [] [5] [] [⟨5, (0, 0), (0, 0), 1⟩] (0, 0)
      (by decide) (by decide)).1.mpr (by decide),
   fun hex =>
     absurd ((c4_theorem [⟨0, 0, true⟩, ⟨1, 0, false⟩] none 1 0 (3 / 2) 2
       [((0 : ℚ), (0 : ℚ))] [] [5] [] [] (0, 0)
       (by decide) (by decide)).1.mp hex) (by decide),
   by decide, by decide⟩

/-- Claim C5: when every charge is strictly below `Qlm` and the input and
threshold checks pass, the first hottest-sensor check breaks out of the loop
immediately, the output list is empty, and `corona` raises
`ClusterEmptyList` (the spec's `NoClustersFound`). -/
theorem c5_theorem (pos : List (ℚ × ℚ)) (qs : List ℚ) (T : List Sipm)
    (Qthr Qlm lm nlm : ℚ) (ms : ℤ) (cm : Bool)
    (hlm : 0 ≤ lm) (hnlm : 0 ≤ nlm) (hlen : pos.length = qs.length)
    (hpos : pos.length ≠ 0) (hsum : qs.sum ≠ 0)
    (habove : (select pos (aboveThreshold Qthr qs)).length ≠ 0)
    (hqsum : (select qs (aboveThreshold Qthr qs)).sum ≠ 0)
    (hQlm : ∀ q ∈ qs, q < Qlm) :
    corona pos qs T Qthr Qlm lm nlm ms cm = some (.error .ClusterEmptyList) := by
  rw [corona_eq, if_neg (not_not_intro hlm), if_neg (not_not_intro hnlm),
    if_neg hpos, if_neg hsum, if_neg habove, if_neg hqsum]
  have hvalid : ∀ i ∈ aboveThreshold Qthr qs, i < pos.length := by
    intro i hi
    have := List.mem_range.mp (List.mem_filter.mp hi).1
    omega
  have hlen1 : (select pos (aboveThreshold Qthr qs)).length
      = (select qs (aboveThreshold Qthr qs)).length := select_length_eq hvalid hlen
  have hq1ne : (select qs (aboveThreshold Qthr qs)).length ≠ 0 := by
    rw [← hlen1]
    exact habove
  have hqne : select qs (aboveThreshold Qthr qs) ≠ [] :=
    fun h0 => hq1ne (by simp [h0])
  have hcond : (select qs (aboveThreshold Qthr qs)).getD
      (argmax (select qs (aboveThreshold Qthr qs))) 0 < Qlm :=
    hQlm _ (mem_select_subset (getD_mem (argmax_lt_length hqne) 0))
  have hbrk : ∀ M', coronaStep T M' Qlm lm nlm ms
      (select pos (aboveThreshold Qthr qs)) (select qs (aboveThreshold Qthr qs)) = .brk := by
    intro M'
    rw [coronaStep_eq, if_pos hcond]
  obtain ⟨n, hn⟩ := Nat.exists_eq_succ_of_ne_zero hq1ne
  rw [hn, coronaLoop, if_neg hq1ne, hbrk _]
  rfl

/-- Witness for C5 at a concrete input: `Qlm = 2` above the only charge. -/
theorem c5_witness :
    corona [((0 : ℚ), (0 : ℚ))] [1] [] 0 2 0 1 1 false
      = some (.error .ClusterEmptyList) :=
  c5_theorem [((0 : ℚ), (0 : ℚ))] [1] [] 0 2 0 1 1 false le_rfl (by decide) rfl
    (by decide) (by decide) (by decide) (by decide) (by decide)

/-- Claim C6: the spec's concrete scenario.  Four sensors, charges
`[5,5,5,1]`, `Qthr=0, Qlm=4, lm_radius=0, new_lm_radius=3/2, msipm=2`, no
masking: exactly one cluster, covering the first three sensors, with total
charge 15 and 3 contributing sensors, and no failure. -/
theorem c6_theorem :
    corona [((0 : ℚ), (0 : ℚ)), (1, 0), (0, 1), (10, 10)] [5, 5, 5, 1] []
      0 4 0 (3 / 2) 2 false
      = some (.ok [⟨15, (1 / 3, 1 / 3), (2 / 9, 2 / 9), 3⟩]) := by
  decide

/-- Claim C7: within one corona run, the regions consumed by accepted
clusters are pairwise disjoint as sets of original sensor identities
(`ids`), and the loop emits exactly one cluster per recorded region — no
sensor contributes to two different output clusters. -/
theorem c7_theorem (T : List Sipm) (M : Option (List Bool)) (Qlm lm nlm : ℚ)
    (ms : ℤ) (fuel : ℕ) (pos : List (ℚ × ℚ)) (qs : List ℚ) (ids : List ℕ)
    (c cs : List Cluster)
    (hnd : ids.Nodup) (hl1 : ids.length = qs.length)
    (hl2 : pos.length = qs.length)
    (hres : coronaLoop T M Qlm lm nlm ms fuel pos qs c = some (.ok cs)) :
    List.Pairwise (fun A B => ∀ x ∈ A, x ∉ B)
      (coronaRegions T M Qlm lm nlm ms fuel pos qs ids) ∧
    (coronaRegions T M Qlm lm nlm ms fuel pos qs ids).length + c.length
      = cs.length := by
  obtain ⟨_, hpw, hcorr⟩ :=
    coronaRegions_spec T M Qlm lm nlm ms fuel pos qs ids hnd hl1 hl2
  exact ⟨hpw, hcorr c cs hres⟩

/-- Witness for C7 at the C6 scenario: one region, trivially disjoint, one
emitted cluster. -/
theorem c7_witness :
    List.Pairwise (fun A B => ∀ x ∈ A, x ∉ B)
      (coronaRegions [] none 4 0 (3 / 2) 2 4
        [((0 : ℚ), (0 : ℚ)), (1, 0), (0, 1), (10, 10)] [5, 5, 5, 1] [0, 1, 2, 3]) ∧
    (coronaRegions [] none 4 0 (3 / 2) 2 4
      [((0 : ℚ), (0 : ℚ)), (1, 0), (0, 1), (10, 10)] [5, 5, 5, 1] [0, 1, 2, 3]).length
      + ([] : List Cluster).length
      = [(⟨15, (1 / 3, 1 / 3), (2 / 9, 2 / 9), 3⟩ : Cluster)].length :=
  c7_theorem [] none 4 0 (3 / 2) 2 4
    [((0 : ℚ), (0 : ℚ)), (1, 0), (0, 1), (10, 10)] [5, 5, 5, 1] [0, 1, 2, 3]
    [] [⟨15, (1 / 3, 1 / 3), (2 / 9, 2 / 9), 3⟩]
    (by decide) rfl rfl (by decide)

/-- Claim C8: for a name bound nowhere in the module, `find_algorithm`
raises the explicit `ValueError` with the "does not exist" message — never
a generic `AttributeError`. -/
theorem c8_theorem (s n : String)
    (h : ((module_dict.map Prod.fst).contains s) = false) :
    find_algorithm s = .error (.ValueErrorMsg (unknown_algo_msg s)) ∧
    find_algorithm s ≠ .error (.AttributeError n) := by
  have hfa : find_algorithm s = .error (.ValueErrorMsg (unknown_algo_msg s)) := by
    unfold find_algorithm
    rw [h]
    simp
  refine ⟨hfa, ?_⟩
  rw [hfa]
  intro hcontra
  injection hcontra with hcontra
  cases hcontra

/-- Witness for C8 at a concrete unknown name. -/
theorem c8_witness :
    find_algorithm ("gaussian_mixture") =
      .error (.ValueErrorMsg (unknown_algo_msg ("gaussian_mixture"))) ∧
    find_algorithm ("gaussian_mixture") ≠
      .error (.AttributeError ("gaussian_mixture")) :=
  c8_theorem ("gaussian_mixture") ("gaussian_mixture") (by decide)

/-- Claim C9: in every iteration, the hottest remaining sensor is at squared
distance zero from its own position, hence always inside the `lm_radius`
neighborhood used for peak refinement; that neighborhood is non-empty, so
the refinement `barycenter` can never raise the empty-input failure. -/
theorem c9_theorem (pos : List (ℚ × ℚ)) (qs : List ℚ) (lm : ℚ)
    (hlen : pos.length = qs.length) (hq : qs ≠ []) (hlm : 0 ≤ lm) :
    sqDist (pos.getD (argmax qs) (0, 0)) (pos.getD (argmax qs) (0, 0)) = 0 ∧
    argmax qs ∈ get_nearby_sipm_inds (pos.getD (argmax qs) (0, 0)) lm pos ∧
    select pos (get_nearby_sipm_inds (pos.getD (argmax qs) (0, 0)) lm pos) ≠ [] ∧
    coronaRefined pos qs lm ≠ .error .SipmEmptyList :=
  ⟨sqDist_self _, argmax_mem_nearby hlen hq hlm,
   select_ne_nil_of_mem (argmax_mem_nearby hlen hq hlm) (hlen ▸ argmax_lt_length hq),
   coronaRefined_ne_empty hlen hq hlm⟩

/-- Witness for C9 at a concrete input. -/
theorem c9_witness :
    sqDist (([((0 : ℚ), (0 : ℚ)), (1, 0)]).getD (argmax [1, 2]) (0, 0))
        (([((0 : ℚ), (0 : ℚ)), (1, 0)]).getD (argmax [1, 2]) (0, 0)) = 0 ∧
    argmax [(1 : ℚ), 2] ∈ get_nearby_sipm_inds
      (([((0 : ℚ), (0 : ℚ)), (1, 0)]).getD (argmax [1, 2]) (0, 0)) 0
      [((0 : ℚ), (0 : ℚ)), (1, 0)] ∧
    select [((0 : ℚ), (0 : ℚ)), (1, 0)] (get_nearby_sipm_inds
      (([((0 : ℚ), (0 : ℚ)), (1, 0)]).getD (argmax [1, 2]) (0, 0)) 0
      [((0 : ℚ), (0 : ℚ)), (1, 0)]) ≠ [] ∧
    coronaRefined [((0 : ℚ), (0 : ℚ)), (1, 0)] [1, 2] 0 ≠ .error .SipmEmptyList :=
  c9_theorem [((0 : ℚ), (0 : ℚ)), (1, 0)] [1, 2] 0 rfl (by decide) le_rfl

/-- Claim C10: the registry lookup succeeds for every module-level binding —
imports and internal helpers included, not only the clustering strategies —
returning the bound attribute. -/
theorem c10_theorem :
    ∀ kv ∈ module_dict, find_algorithm kv.1 = Except.ok kv.2 := by
  decide

/-- Witness for C10: an internal helper, not a clustering strategy, is
returned by the lookup. -/
theorem c10_witness :
    find_algorithm ("discard_sipms") = Except.ok ModuleAttr.discard_sipms :=
  c10_theorem ("discard_sipms", ModuleAttr.discard_sipms) (by decide)

end XYAlg
